import Mathlib

/-!
Verification of the grid-layout editor (grid-vuejs).

Shallow embedding of the grid placement and drag-interaction engine:

* data model: a widget with an id, a type, an integer cell position,
  an integer cell size, a content payload and a creation timestamp
  (GridContainer.vue, WidgetData);
* the placement solver findAvailablePosition and the creation flow
  createWidget (GridContainer.vue);
* the collection mutators updateWidget and deleteWidget (GridContainer.vue);
* the geometry predicates wouldOverlap and getCellsForPosition, and the
  pixel-to-cell mapping getGridPositionFromMouse (WidgetObject.vue);
* the trash-zone hit test isMouseOverTrashZone and the composition of the
  document-level mouseup handler with the widget-level mouseup handler
  (endDragSystem), in listener registration order (GridContainer.vue
  registers its document listener on mount, WidgetObject.vue on drag start).

Pixel quantities are modelled as exact rationals (the source computes with
JS floating-point numbers); cell coordinates and sizes are integers
(JS numbers holding integral values).
-/

namespace GridVue

/-- A grid cell coordinate or cell position, `{ x, y }` in the source. -/
structure Pos where
  x : Int
  y : Int
deriving DecidableEq

/-- A widget size in cells, `{ width, height }` in the source. -/
structure Size where
  width : Int
  height : Int
deriving DecidableEq

/-- Widget type discriminator, `'text' | 'image'` in the source. -/
inductive WType where
  | text
  | image
deriving DecidableEq

/-- Widget content payload (GridContainer.vue, WidgetData.content). -/
structure Content where
  text : Option String
  textColor : Option String
  backgroundColor : Option String
  url : Option String
  localFile : Option String
deriving DecidableEq

/-- A widget (GridContainer.vue, interface WidgetData). -/
structure Widget where
  id : String
  type : WType
  position : Pos
  size : Size
  content : Content
  createdAt : Int
deriving DecidableEq

/-- The cells covered by a rectangle anchored at `p` of size `s`:
the double loop `for x in [p.x, p.x+width), for y in [p.y, p.y+height)`
used both to mark occupancy (GridContainer.vue, findAvailablePosition)
and to enumerate hover cells (WidgetObject.vue, getCellsForPosition). -/
def cellsOf (p : Pos) (s : Size) : List Pos :=
  (List.range s.width.toNat).flatMap (fun i : ℕ =>
    (List.range s.height.toNat).map (fun j : ℕ => ⟨p.x + (i : Int), p.y + (j : Int)⟩))

/-- The occupancy set built from all widgets (GridContainer.vue,
findAvailablePosition: the `occupiedCells` set). -/
def occupiedCells (ws : List Widget) : List Pos :=
  ws.flatMap (fun w => cellsOf w.position w.size)

/-- The inner `canPlace` check of findAvailablePosition: all cells of the
candidate rectangle are outside the occupancy set (the source's nested
checkX/checkY loops with early break). -/
def canPlace (occ : List Pos) (p : Pos) (s : Size) : Bool :=
  (cellsOf p s).all (fun c => !(occ.contains c))

/-- The candidate scan order of findAvailablePosition: row-major,
`y` from `0` to `rows - height`, and within each row `x` from `0` to
`columns - width` (both inclusive, matching the source's `<=` loop bounds). -/
def candidates (columns rows width height : Int) : List Pos :=
  (List.range (rows - height + 1).toNat).flatMap (fun y : ℕ =>
    (List.range (columns - width + 1).toNat).map (fun x : ℕ => ⟨(x : Int), (y : Int)⟩))

/-- GridContainer.vue, findAvailablePosition: return the first scanned
position whose cells are all free, `null` (here `none`) when no position
fits. -/
def findAvailablePosition (width height : Int) (ws : List Widget)
    (columns rows : Int) : Option Pos :=
  (candidates columns rows width height).find? (fun p =>
    canPlace (occupiedCells ws) p ⟨width, height⟩)

/-- GridContainer.vue, createWidget: ask the solver for a position; on
`null` fire the no-space alert and leave the collection alone, otherwise
push the new widget. The returned Bool records whether the user-visible
no-space alert was raised. -/
def createWidget (ty : WType) (width height : Int) (content : Content)
    (id : String) (now : Int) (ws : List Widget) (columns rows : Int) :
    List Widget × Bool :=
  match findAvailablePosition width height ws columns rows with
  | none => (ws, true)
  | some p => (ws ++ [⟨id, ty, p, ⟨width, height⟩, content, now⟩], false)

/-- GridContainer.vue, updateWidget: find the first widget with the given
id and mutate its position; do nothing when no widget matches. -/
def updateWidget (id : String) (p : Pos) : List Widget → List Widget
  | [] => []
  | w :: rest =>
      if w.id = id then { w with position := p } :: rest
      else w :: updateWidget id p rest

/-- GridContainer.vue, deleteWidget: findIndex + splice(1) — remove the
first widget with the given id, do nothing when absent. -/
def deleteWidget (id : String) : List Widget → List Widget
  | [] => []
  | w :: rest => if w.id = id then rest else w :: deleteWidget id rest

/-- WidgetObject.vue, wouldOverlap: candidate out of grid bounds, or the
candidate rectangle of the dragged widget's size meets some other widget's
rectangle (self excluded by id; far edges exclusive). -/
def wouldOverlap (newX newY : Int) (self : Widget) (widgets : List Widget)
    (columns rows : Int) : Bool :=
  if newX < 0 ∨ newY < 0 ∨ newX + self.size.width > columns ∨
      newY + self.size.height > rows then
    true
  else
    widgets.any (fun otherWidget =>
      if otherWidget.id = self.id then false
      else
        decide (¬(newX ≥ otherWidget.position.x + otherWidget.size.width ∨
          newX + self.size.width ≤ otherWidget.position.x ∨
          newY ≥ otherWidget.position.y + otherWidget.size.height ∨
          newY + self.size.height ≤ otherWidget.position.y)))

/-- WidgetObject.vue, getCellsForPosition: the cells the dragged widget
would occupy at a grid position (same double loop as `cellsOf`). -/
def getCellsForPosition (gridX gridY : Int) (self : Widget) : List Pos :=
  cellsOf ⟨gridX, gridY⟩ self.size

/-- JS `Math.floor` on an exact rational pixel quantity. -/
def jsFloor (q : ℚ) : Int := ⌊q⌋

/-- The grid element's bounding client rect (left, top, width, height),
as read by `getBoundingClientRect` in the source. -/
structure GridBox where
  left : ℚ
  top : ℚ
  width : ℚ
  height : ℚ
deriving DecidableEq

/-- The pointer's column index (WidgetObject.vue,
getGridPositionFromMouse): subtract the grid's left edge and the 8px
padding, divide by the cell pitch (equal cell width plus the 8px gap,
with 16px total horizontal padding), floor. -/
def pointerCellX (mouseX : ℚ) (box : GridBox) (columns : Int) : Int :=
  jsFloor ((mouseX - box.left - 8) /
    ((box.width - 16 - ((columns : ℚ) - 1) * 8) / (columns : ℚ) + 8))

/-- The pointer's row index (WidgetObject.vue, getGridPositionFromMouse),
same computation on the vertical axis. -/
def pointerCellY (mouseY : ℚ) (box : GridBox) (rows : Int) : Int :=
  jsFloor ((mouseY - box.top - 8) /
    ((box.height - 16 - ((rows : ℚ) - 1) * 8) / (rows : ℚ) + 8))

/-- WidgetObject.vue, getGridPositionFromMouse: `none` when the grid
element cannot be measured; otherwise the pointer's cell shifted by
`floor(size/2)` on each axis so the widget's center tracks the pointer,
clamped into the grid. -/
def getGridPositionFromMouse (mouseX mouseY : ℚ) (gridBox : Option GridBox)
    (self : Widget) (columns rows : Int) : Option Pos :=
  match gridBox with
  | none => none
  | some box =>
      let cellX := pointerCellX mouseX box columns
      let cellY := pointerCellY mouseY box rows
      let centerOffsetX := Int.fdiv self.size.width 2
      let centerOffsetY := Int.fdiv self.size.height 2
      let targetX := cellX - centerOffsetX
      let targetY := cellY - centerOffsetY
      let clampedX := max 0 (min targetX (columns - self.size.width))
      let clampedY := max 0 (min targetY (rows - self.size.height))
      some ⟨clampedX, clampedY⟩

/-- GridContainer.vue, isMouseOverTrashZone: containment in the fixed
bottom-left trash rectangle, whose dimensions depend on the 768px
viewport-width breakpoint. -/
def isMouseOverTrashZone (windowWidth windowHeight mouseX mouseY : ℚ) : Bool :=
  let isMobile := windowWidth < 768
  let trashZoneHeight : ℚ := if isMobile then 60 else 80
  let trashZoneWidth : ℚ := if isMobile then 150 else 200
  let trashZoneBottom : ℚ := if isMobile then 20 else 24
  let trashZoneLeft : ℚ := if isMobile then 20 else 24
  let trashZoneTop := windowHeight - trashZoneHeight - trashZoneBottom
  let trashZoneRight := trashZoneLeft + trashZoneWidth
  decide (mouseX ≥ trashZoneLeft ∧ mouseX ≤ trashZoneRight ∧
    mouseY ≥ trashZoneTop ∧ mouseY ≤ windowHeight - trashZoneBottom)

/-- WidgetObject.vue, handleMouseMove: the hover-feedback payload of the
dragMove notification. A valid candidate carries its full covered-cell
set and `valid = true`; an invalid candidate (no grid mapping, or
wouldOverlap) carries an empty cell list and `valid = false`. -/
def dragMoveEmit (mouseX mouseY : ℚ) (gridBox : Option GridBox)
    (self : Widget) (ws : List Widget) (columns rows : Int) :
    List Pos × Bool :=
  match getGridPositionFromMouse mouseX mouseY gridBox self columns rows with
  | some gp =>
      if wouldOverlap gp.x gp.y self ws columns rows then ([], false)
      else (getCellsForPosition gp.x gp.y self, true)
  | none => ([], false)

/-- The release of a drag gesture over the whole system: the document
mouseup listener of GridContainer.vue (registered at mount, so it fires
first) deletes the dragged widget when the pointer is over the trash
zone; then the widget's own mouseup handler (WidgetObject.vue,
handleMouseUp, registered at drag start) recomputes the candidate cell
from the release pixel and commits it through updateWidget unless it
would overlap — checked against the collection as the first handler left
it. -/
def endDragSystem (windowWidth windowHeight mouseX mouseY : ℚ)
    (gridBox : Option GridBox) (self : Widget) (ws : List Widget)
    (columns rows : Int) : List Widget :=
  let ws1 :=
    if isMouseOverTrashZone windowWidth windowHeight mouseX mouseY then
      deleteWidget self.id ws
    else ws
  match getGridPositionFromMouse mouseX mouseY gridBox self columns rows with
  | some gp =>
      if wouldOverlap gp.x gp.y self ws1 columns rows then ws1
      else updateWidget self.id gp ws1
  | none => ws1

/-! ## Specification-side predicates

These restate the spec's wording (row-major first-fit order, rectangle
intersection with exclusive far edges, cell disjointness) independently
of the source's loop structure, to be compared with the embedded code. -/

/-- A candidate position is inside the scan range of the solver:
`0 ≤ x ≤ columns - width` and `0 ≤ y ≤ rows - height`. -/
def InRange (columns rows width height : Int) (p : Pos) : Prop :=
  0 ≤ p.x ∧ p.x + width ≤ columns ∧ 0 ≤ p.y ∧ p.y + height ≤ rows

/-- A candidate position is free: none of its covered cells meet the
occupancy set built from all existing widgets. -/
def FreeAt (width height : Int) (ws : List Widget) (p : Pos) : Prop :=
  ∀ c ∈ cellsOf p ⟨width, height⟩, c ∉ occupiedCells ws

/-- Strict row-major order on positions: earlier row, or same row and
smaller column. -/
def rmLt (a b : Pos) : Prop :=
  a.y < b.y ∨ (a.y = b.y ∧ a.x < b.x)

/-- Axis-aligned rectangle intersection with exclusive far edges (the
spec's `overlaps`): two rectangles sharing only an edge do not
intersect. -/
def overlapsRect (pa : Pos) (sa : Size) (pb : Pos) (sb : Size) : Prop :=
  pa.x < pb.x + sb.width ∧ pb.x < pa.x + sa.width ∧
    pa.y < pb.y + sb.height ∧ pb.y < pa.y + sa.height

/-- Two widgets occupy disjoint cell sets. -/
def CellsDisjoint (a b : Widget) : Prop :=
  ∀ c ∈ cellsOf a.position a.size, c ∉ cellsOf b.position b.size

/-- The state transitions that mutate the widget collection: creation
through the placement solver (with a fresh id, as the data model
requires ids to be unique), a drag commit guarded by `wouldOverlap`
(WidgetObject.vue, handleMouseUp), and deletion. -/
inductive Step (columns rows : Int) : List Widget → List Widget → Prop where
  | create (ws : List Widget) (ty : WType) (width height : Int)
      (content : Content) (id : String) (now : Int) (p : Pos)
      (hid : id ∉ ws.map Widget.id)
      (hp : findAvailablePosition width height ws columns rows = some p) :
      Step columns rows ws (ws ++ [⟨id, ty, p, ⟨width, height⟩, content, now⟩])
  | dragCommit (ws : List Widget) (self : Widget) (p : Pos)
      (hmem : self ∈ ws)
      (hov : wouldOverlap p.x p.y self ws columns rows = false) :
      Step columns rows ws (updateWidget self.id p ws)
  | delete (ws : List Widget) (id : String) :
      Step columns rows ws (deleteWidget id ws)

/-- States reachable from the empty widget collection. -/
inductive Reachable (columns rows : Int) : List Widget → Prop where
  | start : Reachable columns rows []
  | step {ws ws2 : List Widget} : Reachable columns rows ws →
      Step columns rows ws ws2 → Reachable columns rows ws2

/-- The widget collection is well formed: unique ids and pairwise
disjoint covered cells. -/
def GoodState (ws : List Widget) : Prop :=
  (ws.map Widget.id).Nodup ∧ ws.Pairwise CellsDisjoint

/-! ## Helper lemmas -/

theorem mem_cellsOf {p : Pos} {s : Size} {c : Pos} :
    c ∈ cellsOf p s ↔
      p.x ≤ c.x ∧ c.x < p.x + s.width ∧ p.y ≤ c.y ∧ c.y < p.y + s.height := by
  simp only [cellsOf, List.mem_flatMap, List.mem_map, List.mem_range]
  constructor
  · rintro ⟨i, hi, ⟨j, hj, rfl⟩⟩
    dsimp only
    omega
  · rintro ⟨h1, h2, h3, h4⟩
    obtain ⟨cx, cy⟩ := c
    dsimp only at h1 h2 h3 h4
    refine ⟨(cx - p.x).toNat, by omega, (cy - p.y).toNat, by omega, ?_⟩
    simp only [Pos.mk.injEq]
    constructor <;> omega

theorem mem_occupiedCells {ws : List Widget} {c : Pos} :
    c ∈ occupiedCells ws ↔ ∃ w ∈ ws, c ∈ cellsOf w.position w.size := by
  simp [occupiedCells, List.mem_flatMap]

theorem canPlace_iff {occ : List Pos} {p : Pos} {s : Size} :
    canPlace occ p s = true ↔ ∀ c ∈ cellsOf p s, c ∉ occ := by
  simp [canPlace]

theorem mem_candidates {columns rows width height : Int} {p : Pos} :
    p ∈ candidates columns rows width height ↔
      InRange columns rows width height p := by
  simp only [candidates, List.mem_flatMap, List.mem_map, List.mem_range, InRange]
  constructor
  · rintro ⟨y, hy, ⟨x, hx, rfl⟩⟩
    dsimp only
    omega
  · rintro ⟨h1, h2, h3, h4⟩
    obtain ⟨px, py⟩ := p
    dsimp only at h1 h2 h3 h4
    refine ⟨py.toNat, by omega, px.toNat, by omega, ?_⟩
    simp only [Pos.mk.injEq]
    constructor <;> omega

theorem rmLt_asymm {a b : Pos} (h : rmLt a b) : ¬ rmLt b a := by
  simp only [rmLt] at h ⊢
  omega

/-- Pairwise property of a flatMap, from a pairwise outer list, pairwise
inner lists, and a cross condition between inner lists. -/
theorem pairwise_flatMap_of {α β : Type _} {R : β → β → Prop}
    {S : α → α → Prop} {f : α → List β} :
    ∀ {l : List α}, l.Pairwise S → (∀ a ∈ l, (f a).Pairwise R) →
      (∀ a b, S a b → ∀ x ∈ f a, ∀ y ∈ f b, R x y) →
      (l.flatMap f).Pairwise R := by
  intro l
  induction l with
  | nil => intro _ _ _; simp
  | cons a t ih =>
      intro hl hin hcross
      rw [List.pairwise_cons] at hl
      rw [List.flatMap_cons, List.pairwise_append]
      refine ⟨hin a (by simp), ih hl.2 (fun b hb => hin b (by simp [hb])) hcross, ?_⟩
      intro x hx y hy
      rw [List.mem_flatMap] at hy
      obtain ⟨b, hb, hyb⟩ := hy
      exact hcross a b (hl.1 b hb) x hx y hyb

theorem candidates_pairwise (columns rows width height : Int) :
    (candidates columns rows width height).Pairwise rmLt := by
  unfold candidates
  refine pairwise_flatMap_of (S := fun a b : ℕ => a < b)
    (List.pairwise_lt_range _) ?_ ?_
  · intro y _
    simp only [List.pairwise_map]
    refine (List.pairwise_lt_range _).imp ?_
    intro a b hab
    simp [rmLt]
    omega
  · intro a b hab x hx y hy
    simp only [List.mem_map, List.mem_range] at hx hy
    obtain ⟨xa, -, rfl⟩ := hx
    obtain ⟨xb, -, rfl⟩ := hy
    simp only [rmLt]
    omega

/-- find? on a strictly ordered list returns exactly the least element
satisfying the predicate. -/
theorem find_first_of_pairwise {α : Type _} {R : α → α → Prop}
    (hasym : ∀ x y, R x y → ¬ R y x) {p : α → Bool} {a : α} :
    ∀ {l : List α}, l.Pairwise R →
      (l.find? p = some a ↔
        a ∈ l ∧ p a = true ∧ ∀ b ∈ l, p b = true → ¬ R b a) := by
  intro l
  induction l with
  | nil => intro _; simp
  | cons h t ih =>
      intro hl
      rw [List.pairwise_cons] at hl
      by_cases hp : p h = true
      · rw [List.find?_cons_of_pos _ hp]
        constructor
        · rintro heq
          injection heq with heq
          subst heq
          refine ⟨by simp, hp, ?_⟩
          intro b hb _
          rcases List.mem_cons.mp hb with rfl | hb
          · intro hr; exact hasym _ _ hr hr
          · exact hasym _ _ (hl.1 b hb)
        · rintro ⟨hmem, hpa, hmin⟩
          rcases List.mem_cons.mp hmem with rfl | hmem
          · rfl
          · exact absurd (hl.1 a hmem) (hmin h (by simp) hp)
      · rw [List.find?_cons_of_neg _ hp]
        rw [ih hl.2]
        constructor
        · rintro ⟨hmem, hpa, hmin⟩
          refine ⟨by simp [hmem], hpa, ?_⟩
          intro b hb hpb
          rcases List.mem_cons.mp hb with rfl | hb
          · exact absurd hpb hp
          · exact hmin b hb hpb
        · rintro ⟨hmem, hpa, hmin⟩
          rcases List.mem_cons.mp hmem with rfl | hmem
          · exact absurd hpa hp
          · exact ⟨hmem, hpa, fun b hb hpb => hmin b (by simp [hb]) hpb⟩

theorem findAvailablePosition_eq_some_iff {width height : Int}
    {ws : List Widget} {columns rows : Int} {q : Pos} :
    findAvailablePosition width height ws columns rows = some q ↔
      InRange columns rows width height q ∧ FreeAt width height ws q ∧
        ∀ r, InRange columns rows width height r →
          FreeAt width height ws r → ¬ rmLt r q := by
  rw [findAvailablePosition,
    find_first_of_pairwise (fun _ _ => rmLt_asymm) (candidates_pairwise columns rows width height)]
  simp only [mem_candidates, canPlace_iff, FreeAt]

theorem findAvailablePosition_eq_none_iff {width height : Int}
    {ws : List Widget} {columns rows : Int} :
    findAvailablePosition width height ws columns rows = none ↔
      ∀ r, InRange columns rows width height r →
        ¬ FreeAt width height ws r := by
  rw [findAvailablePosition, List.find?_eq_none]
  simp only [mem_candidates, canPlace_iff, FreeAt]

theorem wouldOverlap_eq_true_iff {newX newY : Int} {self : Widget}
    {ws : List Widget} {columns rows : Int} :
    wouldOverlap newX newY self ws columns rows = true ↔
      (newX < 0 ∨ newY < 0 ∨ columns < newX + self.size.width ∨
        rows < newY + self.size.height) ∨
      ∃ o ∈ ws, o.id ≠ self.id ∧
        overlapsRect ⟨newX, newY⟩ self.size o.position o.size := by
  rw [wouldOverlap]
  by_cases hb : newX < 0 ∨ newY < 0 ∨ newX + self.size.width > columns ∨
      newY + self.size.height > rows
  · rw [if_pos hb]
    simp only [true_iff]
    left
    omega
  · rw [if_neg hb]
    rw [List.any_eq_true]
    constructor
    · rintro ⟨o, ho, hbody⟩
      by_cases hid : o.id = self.id
      · rw [if_pos hid] at hbody
        exact absurd hbody (by simp)
      · rw [if_neg hid] at hbody
        rw [decide_eq_true_iff] at hbody
        refine Or.inr ⟨o, ho, hid, ?_⟩
        simp only [overlapsRect]
        omega
    · rintro (hout | ⟨o, ho, hid, hov⟩)
      · exact absurd (by omega) hb
      · refine ⟨o, ho, ?_⟩
        rw [if_neg hid, decide_eq_true_iff]
        simp only [overlapsRect] at hov
        omega

/-- A rectangle separated from (or only edge-touching) another covers no
common cell. -/
theorem cellsDisjoint_of_separated {pa : Pos} {sa : Size} {pb : Pos} {sb : Size}
    (hsep : pb.x + sb.width ≤ pa.x ∨ pa.x + sa.width ≤ pb.x ∨
      pb.y + sb.height ≤ pa.y ∨ pa.y + sa.height ≤ pb.y) :
    ∀ c ∈ cellsOf pa sa, c ∉ cellsOf pb sb := by
  intro c hca hcb
  rw [mem_cellsOf] at hca hcb
  omega

/-- Not overlapping (exclusive far edges) implies no common covered cell. -/
theorem cellsDisjoint_of_not_overlapsRect {pa : Pos} {sa : Size} {pb : Pos}
    {sb : Size} (h : ¬ overlapsRect pa sa pb sb) :
    ∀ c ∈ cellsOf pa sa, c ∉ cellsOf pb sb := by
  apply cellsDisjoint_of_separated
  simp only [overlapsRect] at h
  omega

theorem updateWidget_map_id (id : String) (p : Pos) :
    ∀ l : List Widget, (updateWidget id p l).map Widget.id = l.map Widget.id := by
  intro l
  induction l with
  | nil => rfl
  | cons w rest ih =>
      rw [updateWidget]
      by_cases hw : w.id = id
      · rw [if_pos hw]
        rfl
      · rw [if_neg hw]
        simp [ih]

theorem mem_updateWidget {id : String} {p : Pos} {b : Widget} :
    ∀ {l : List Widget}, b ∈ updateWidget id p l →
      b ∈ l ∨ ∃ a ∈ l, a.id = id ∧ b = { a with position := p } := by
  intro l
  induction l with
  | nil => intro h; exact absurd h (by simp [updateWidget])
  | cons w rest ih =>
      intro hb
      rw [updateWidget] at hb
      by_cases hw : w.id = id
      · rw [if_pos hw] at hb
        rcases List.mem_cons.mp hb with rfl | hb
        · exact Or.inr ⟨w, by simp, hw, rfl⟩
        · exact Or.inl (by simp [hb])
      · rw [if_neg hw] at hb
        rcases List.mem_cons.mp hb with rfl | hb
        · exact Or.inl (by simp)
        · rcases ih hb with h | ⟨a, ha, haid, hba⟩
          · exact Or.inl (by simp [h])
          · exact Or.inr ⟨a, by simp [ha], haid, hba⟩

theorem updateWidget_of_absent {id : String} {p : Pos} :
    ∀ {l : List Widget}, id ∉ l.map Widget.id → updateWidget id p l = l := by
  intro l
  induction l with
  | nil => intro _; rfl
  | cons w rest ih =>
      intro hid
      simp only [List.map_cons, List.mem_cons] at hid
      push_neg at hid
      rw [updateWidget, if_neg (fun h => hid.1 h.symm), ih hid.2]

theorem updateWidget_self_position {self : Widget} :
    ∀ {l : List Widget}, (l.map Widget.id).Nodup → self ∈ l →
      updateWidget self.id self.position l = l := by
  intro l
  induction l with
  | nil => intro _ h; exact absurd h (by simp)
  | cons w rest ih =>
      intro hnd hmem
      simp only [List.map_cons, List.nodup_cons] at hnd
      rw [updateWidget]
      by_cases hw : w.id = self.id
      · rw [if_pos hw]
        have hws : w = self := by
          rcases List.mem_cons.mp hmem with rfl | hmem
          · rfl
          · exact absurd (hw ▸ List.mem_map_of_mem Widget.id hmem) hnd.1
        subst hws
        rfl
      · rw [if_neg hw]
        have hmem2 : self ∈ rest := by
          rcases List.mem_cons.mp hmem with rfl | hmem
          · exact absurd rfl hw
          · exact hmem
        rw [ih hnd.2 hmem2]

theorem deleteWidget_sublist (id : String) :
    ∀ l : List Widget, List.Sublist (deleteWidget id l) l := by
  intro l
  induction l with
  | nil => exact List.Sublist.refl _
  | cons w rest ih =>
      rw [deleteWidget]
      by_cases hw : w.id = id
      · rw [if_pos hw]
        exact List.sublist_cons_of_sublist w (List.Sublist.refl rest)
      · rw [if_neg hw]
        exact List.Sublist.cons₂ w ih

theorem deleteWidget_id_not_mem {id : String} :
    ∀ {l : List Widget}, (l.map Widget.id).Nodup →
      id ∉ (deleteWidget id l).map Widget.id := by
  intro l
  induction l with
  | nil => intro _; simp [deleteWidget]
  | cons w rest ih =>
      intro hnd
      simp only [List.map_cons, List.nodup_cons] at hnd
      rw [deleteWidget]
      by_cases hw : w.id = id
      · rw [if_pos hw]
        exact fun h => hnd.1 (hw ▸ h)
      · rw [if_neg hw]
        simp only [List.map_cons, List.mem_cons]
        push_neg
        exact ⟨fun h => hw h.symm, ih hnd.2⟩

theorem cellsDisjoint_symm {a b : Widget} (h : CellsDisjoint a b) :
    CellsDisjoint b a :=
  fun c hcb hca => h c hca hcb

theorem cellsDisjoint_symmetric : Symmetric CellsDisjoint :=
  fun _ _ h => cellsDisjoint_symm h

theorem updateWidget_pairwise {self : Widget} {p : Pos} :
    ∀ {ws : List Widget}, (ws.map Widget.id).Nodup →
      ws.Pairwise CellsDisjoint → self ∈ ws →
      (∀ other ∈ ws, other.id ≠ self.id →
        CellsDisjoint { self with position := p } other) →
      (updateWidget self.id p ws).Pairwise CellsDisjoint := by
  intro ws
  induction ws with
  | nil => intro _ _ h _; exact absurd h (by simp)
  | cons w rest ih =>
      intro hnd hpw hmem hdis
      simp only [List.map_cons, List.nodup_cons] at hnd
      rw [List.pairwise_cons] at hpw
      rw [updateWidget]
      by_cases hw : w.id = self.id
      · rw [if_pos hw]
        have hws : w = self := by
          rcases List.mem_cons.mp hmem with rfl | hmem
          · rfl
          · exact absurd (hw ▸ List.mem_map_of_mem Widget.id hmem) hnd.1
        subst hws
        rw [List.pairwise_cons]
        refine ⟨?_, hpw.2⟩
        intro b hb
        have hbid : b.id ≠ w.id := by
          intro h
          exact hnd.1 (h ▸ List.mem_map_of_mem Widget.id hb)
        exact hdis b (by simp [hb]) hbid
      · rw [if_neg hw]
        have hmem2 : self ∈ rest := by
          rcases List.mem_cons.mp hmem with rfl | hmem
          · exact absurd rfl hw
          · exact hmem
        rw [List.pairwise_cons]
        constructor
        · intro b hb
          rcases mem_updateWidget hb with hbr | ⟨a, har, haid, rfl⟩
          · exact hpw.1 b hbr
          · have has : a = self :=
              List.inj_on_of_nodup_map hnd.2 har hmem2 haid
            subst has
            exact cellsDisjoint_symm
              (hdis w (by simp) hw)
        · exact ih hnd.2 hpw.2 hmem2 (fun o ho => hdis o (by simp [ho]))

/-- Every state reachable through creation, guarded drag commit, and
deletion keeps unique ids and pairwise disjoint cells. -/
theorem reachable_goodState {columns rows : Int} :
    ∀ {ws : List Widget}, Reachable columns rows ws → GoodState ws := by
  intro ws hreach
  induction hreach with
  | start => exact ⟨by simp, by simp⟩
  | @step ws ws2 hr hs ih =>
      cases hs with
      | create ty width height content id now p hid hp =>
          rcases ih with ⟨hnd, hpw⟩
          constructor
          · rw [List.map_append, List.nodup_append]
            refine ⟨hnd, by simp, ?_⟩
            intro a ha hb
            simp only [List.map_cons, List.map_nil, List.mem_singleton] at hb
            subst hb
            exact hid ha
          · rw [List.pairwise_append]
            refine ⟨hpw, by simp, ?_⟩
            intro a ha b hb
            simp only [List.mem_singleton] at hb
            subst hb
            have hfree : FreeAt width height ws p :=
              (findAvailablePosition_eq_some_iff.mp hp).2.1
            intro c hca hcb
            exact hfree c hcb (mem_occupiedCells.mpr ⟨a, ha, hca⟩)
      | dragCommit self p hmem hov =>
          rcases ih with ⟨hnd, hpw⟩
          constructor
          · rw [updateWidget_map_id]
            exact hnd
          · refine updateWidget_pairwise hnd hpw hmem ?_
            intro other ho hoid
            have hno : ¬ overlapsRect p self.size other.position other.size := by
              intro hovr
              have : wouldOverlap p.x p.y self ws columns rows = true := by
                rw [wouldOverlap_eq_true_iff]
                exact Or.inr ⟨other, ho, hoid, by
                  obtain ⟨px, py⟩ := p
                  exact hovr⟩
              rw [this] at hov
              exact absurd hov (by simp)
            intro c hca hcb
            exact cellsDisjoint_of_not_overlapsRect hno c hca hcb
      | delete id =>
          rcases ih with ⟨hnd, hpw⟩
          exact ⟨List.Nodup.sublist (List.Sublist.map Widget.id
            (deleteWidget_sublist id ws)) hnd,
            hpw.sublist (deleteWidget_sublist id ws)⟩

/-- The drag release never changes the id multiset: only the trash branch
(deletion) touches membership; the optional position commit preserves
ids. -/
theorem endDragSystem_map_id (windowWidth windowHeight mouseX mouseY : ℚ)
    (gridBox : Option GridBox) (self : Widget) (ws : List Widget)
    (columns rows : Int) :
    (endDragSystem windowWidth windowHeight mouseX mouseY gridBox self ws
        columns rows).map Widget.id =
      ((if isMouseOverTrashZone windowWidth windowHeight mouseX mouseY then
          deleteWidget self.id ws
        else ws).map Widget.id) := by
  simp only [endDragSystem]
  cases hgp : getGridPositionFromMouse mouseX mouseY gridBox self columns rows with
  | none => rfl
  | some gp =>
      dsimp only
      by_cases hov : wouldOverlap gp.x gp.y self
          (if isMouseOverTrashZone windowWidth windowHeight mouseX mouseY then
            deleteWidget self.id ws
          else ws) columns rows = true
      · rw [if_pos hov]
      · rw [if_neg hov, updateWidget_map_id]

/-! ## Claim theorems -/

/-- Claim C1: for every requested size and widget collection,
findAvailablePosition returns exactly the row-major-first in-range
position whose covered cells avoid the occupancy set of all existing
widgets, and returns none exactly when no such position exists; on an
empty 8×6 grid two successive 2×2 placements land at (0,0) and then
(2,0). -/
theorem claim_C1_row_major_first_fit (width height : Int) (ws : List Widget)
    (columns rows : Int) :
    (∀ q : Pos, findAvailablePosition width height ws columns rows = some q ↔
      InRange columns rows width height q ∧ FreeAt width height ws q ∧
        ∀ r, InRange columns rows width height r →
          FreeAt width height ws r → ¬ rmLt r q) ∧
    (findAvailablePosition width height ws columns rows = none ↔
      ∀ r, InRange columns rows width height r → ¬ FreeAt width height ws r) ∧
    findAvailablePosition 2 2 [] 8 6 = some ⟨0, 0⟩ ∧
    (∀ (id : String) (ty : WType) (content : Content) (now : Int),
      findAvailablePosition 2 2 [⟨id, ty, ⟨0, 0⟩, ⟨2, 2⟩, content, now⟩] 8 6 =
        some ⟨2, 0⟩) := by
  refine ⟨fun q => findAvailablePosition_eq_some_iff,
    findAvailablePosition_eq_none_iff, ?_, ?_⟩
  · decide
  · intro id ty content now
    rfl

theorem claim_C1_witness : findAvailablePosition 2 2 [] 8 6 = some ⟨0, 0⟩ :=
  (claim_C1_row_major_first_fit 2 2 [] 8 6).2.2.1

/-- Claim C2: in every state reachable from the empty collection through
creation, guarded drag commit, and deletion, distinct widgets cover
disjoint cell sets. -/
theorem claim_C2_no_overlap_invariant {columns rows : Int} {ws : List Widget}
    (hreach : Reachable columns rows ws) :
    ∀ w1 ∈ ws, ∀ w2 ∈ ws, w1 ≠ w2 →
      ∀ c ∈ cellsOf w1.position w1.size, c ∉ cellsOf w2.position w2.size := by
  intro w1 h1 w2 h2 hne
  exact List.Pairwise.forall cellsDisjoint_symmetric
    (reachable_goodState hreach).2 h1 h2 hne

theorem claim_C2_witness :
    (⟨1, 1⟩ : Pos) ∉ cellsOf (⟨2, 0⟩ : Pos) (⟨2, 2⟩ : Size) :=
  @claim_C2_no_overlap_invariant 8 6
    [⟨"w1", WType.text, ⟨0, 0⟩, ⟨2, 2⟩, ⟨none, none, none, none, none⟩, 0⟩,
      ⟨"w2", WType.text, ⟨2, 0⟩, ⟨2, 2⟩, ⟨none, none, none, none, none⟩, 1⟩]
    (Reachable.step
      (Reachable.step Reachable.start
        (Step.create [] WType.text 2 2 ⟨none, none, none, none, none⟩ "w1" 0
          ⟨0, 0⟩ (by simp) (by decide)))
      (Step.create
        [⟨"w1", WType.text, ⟨0, 0⟩, ⟨2, 2⟩, ⟨none, none, none, none, none⟩, 0⟩]
        WType.text 2 2 ⟨none, none, none, none, none⟩ "w2" 1 ⟨2, 0⟩
        (by decide) (by decide)))
    ⟨"w1", WType.text, ⟨0, 0⟩, ⟨2, 2⟩, ⟨none, none, none, none, none⟩, 0⟩
    (by decide)
    ⟨"w2", WType.text, ⟨2, 0⟩, ⟨2, 2⟩, ⟨none, none, none, none, none⟩, 1⟩
    (by decide) (by decide) ⟨1, 1⟩ (by decide)

/-- Claim C3: wouldOverlap is true exactly when the candidate rectangle
exits the grid bounds or meets (exclusive far edges) the rectangle of
some widget with a different id; separated or only edge-touching
rectangles never count as overlapping. -/
theorem claim_C3_wouldOverlap_characterization (newX newY : Int)
    (self : Widget) (ws : List Widget) (columns rows : Int) :
    (wouldOverlap newX newY self ws columns rows = true ↔
      (newX < 0 ∨ newY < 0 ∨ columns < newX + self.size.width ∨
        rows < newY + self.size.height) ∨
      ∃ o ∈ ws, o.id ≠ self.id ∧
        overlapsRect ⟨newX, newY⟩ self.size o.position o.size) ∧
    (∀ (pa : Pos) (sa : Size) (pb : Pos) (sb : Size),
      (pb.x + sb.width ≤ pa.x ∨ pa.x + sa.width ≤ pb.x ∨
        pb.y + sb.height ≤ pa.y ∨ pa.y + sa.height ≤ pb.y) →
      ¬ overlapsRect pa sa pb sb) := by
  refine ⟨wouldOverlap_eq_true_iff, ?_⟩
  intro pa sa pb sb hsep hov
  simp only [overlapsRect] at hov
  omega

theorem claim_C3_witness :
    wouldOverlap (-1) 0
      ⟨"a", WType.text, ⟨0, 0⟩, ⟨1, 1⟩, ⟨none, none, none, none, none⟩, 0⟩
      [] 8 6 = true :=
  (claim_C3_wouldOverlap_characterization (-1) 0
      ⟨"a", WType.text, ⟨0, 0⟩, ⟨1, 1⟩, ⟨none, none, none, none, none⟩, 0⟩
      [] 8 6).1.mpr (Or.inl (Or.inl (by decide)))

/-- Claim C4: with a measurable grid box, getGridPositionFromMouse
returns the pointer's cell minus floor(size/2) on each axis, clamped
into the scan range; whenever the widget's size fits the grid the
returned candidate is in-bounds, for every pointer pixel (also outside
the grid). -/
theorem claim_C4_center_tracking_clamped (mouseX mouseY : ℚ) (box : GridBox)
    (self : Widget) (columns rows : Int)
    (hw : self.size.width ≤ columns) (hh : self.size.height ≤ rows) :
    getGridPositionFromMouse mouseX mouseY (some box) self columns rows =
      some ⟨max 0 (min (pointerCellX mouseX box columns -
              Int.fdiv self.size.width 2) (columns - self.size.width)),
            max 0 (min (pointerCellY mouseY box rows -
              Int.fdiv self.size.height 2) (rows - self.size.height))⟩ ∧
    ∀ p : Pos,
      getGridPositionFromMouse mouseX mouseY (some box) self columns rows =
        some p →
      0 ≤ p.x ∧ p.x + self.size.width ≤ columns ∧ 0 ≤ p.y ∧
        p.y + self.size.height ≤ rows := by
  constructor
  · rfl
  · intro p hp
    simp only [getGridPositionFromMouse, Option.some.injEq] at hp
    subst hp
    dsimp only
    omega

theorem claim_C4_witness :
    getGridPositionFromMouse 100 100 (some ⟨0, 0, 872, 656⟩)
        ⟨"a", WType.text, ⟨0, 0⟩, ⟨2, 2⟩, ⟨none, none, none, none, none⟩, 0⟩
        8 6 =
      some ⟨max 0 (min (pointerCellX 100 ⟨0, 0, 872, 656⟩ 8 - Int.fdiv 2 2)
              (8 - 2)),
            max 0 (min (pointerCellY 100 ⟨0, 0, 872, 656⟩ 6 - Int.fdiv 2 2)
              (6 - 2))⟩ :=
  (claim_C4_center_tracking_clamped 100 100 ⟨0, 0, 872, 656⟩
    ⟨"a", WType.text, ⟨0, 0⟩, ⟨2, 2⟩, ⟨none, none, none, none, none⟩, 0⟩
    8 6 (by decide) (by decide)).1

/-- Claim C5: releasing a drag with the pointer inside the trash-zone
rectangle removes the dragged widget from the collection, for every
candidate cell position and regardless of its validity. -/
theorem claim_C5_trash_release_deletes (windowWidth windowHeight
    mouseX mouseY : ℚ) (gridBox : Option GridBox) (self : Widget)
    (ws : List Widget) (columns rows : Int)
    (htrash : isMouseOverTrashZone windowWidth windowHeight mouseX mouseY =
      true)
    (hnd : (ws.map Widget.id).Nodup) :
    self.id ∉ (endDragSystem windowWidth windowHeight mouseX mouseY gridBox
      self ws columns rows).map Widget.id := by
  rw [endDragSystem_map_id, if_pos htrash]
  exact deleteWidget_id_not_mem hnd

theorem claim_C5_witness :
    "a" ∉ (endDragSystem 1024 768 100 700 (some ⟨0, 0, 872, 656⟩)
      ⟨"a", WType.text, ⟨0, 0⟩, ⟨2, 2⟩, ⟨none, none, none, none, none⟩, 0⟩
      [⟨"a", WType.text, ⟨0, 0⟩, ⟨2, 2⟩, ⟨none, none, none, none, none⟩, 0⟩]
      8 6).map Widget.id :=
  claim_C5_trash_release_deletes 1024 768 100 700 (some ⟨0, 0, 872, 656⟩)
    ⟨"a", WType.text, ⟨0, 0⟩, ⟨2, 2⟩, ⟨none, none, none, none, none⟩, 0⟩
    [⟨"a", WType.text, ⟨0, 0⟩, ⟨2, 2⟩, ⟨none, none, none, none, none⟩, 0⟩]
    8 6 (by norm_num [isMouseOverTrashZone]) (by decide)

/-- Claim C6: released away from the trash zone at an invalid candidate
(no grid mapping, or wouldOverlap), the whole collection — in particular
the dragged widget's position — is left unchanged. -/
theorem claim_C6_invalid_release_reverts (windowWidth windowHeight
    mouseX mouseY : ℚ) (gridBox : Option GridBox) (self : Widget)
    (ws : List Widget) (columns rows : Int)
    (htrash : isMouseOverTrashZone windowWidth windowHeight mouseX mouseY =
      false)
    (hbad : getGridPositionFromMouse mouseX mouseY gridBox self columns rows =
        none ∨
      ∃ gp : Pos,
        getGridPositionFromMouse mouseX mouseY gridBox self columns rows =
          some gp ∧
        wouldOverlap gp.x gp.y self ws columns rows = true) :
    endDragSystem windowWidth windowHeight mouseX mouseY gridBox self ws
      columns rows = ws := by
  have hcond : ¬ (isMouseOverTrashZone windowWidth windowHeight mouseX
      mouseY = true) := by
    rw [htrash]
    simp
  simp only [endDragSystem, if_neg hcond]
  rcases hbad with hnone | ⟨gp, hgp, hov⟩
  · rw [hnone]
  · rw [hgp]
    dsimp only
    rw [if_pos hov]

theorem claim_C6_witness :
    endDragSystem 1024 768 230 120 (some ⟨0, 0, 872, 656⟩)
      ⟨"a", WType.text, ⟨0, 0⟩, ⟨2, 2⟩, ⟨none, none, none, none, none⟩, 0⟩
      [⟨"a", WType.text, ⟨0, 0⟩, ⟨2, 2⟩, ⟨none, none, none, none, none⟩, 0⟩,
        ⟨"b", WType.text, ⟨2, 0⟩, ⟨2, 2⟩, ⟨none, none, none, none, none⟩, 1⟩]
      8 6 =
      [⟨"a", WType.text, ⟨0, 0⟩, ⟨2, 2⟩, ⟨none, none, none, none, none⟩, 0⟩,
        ⟨"b", WType.text, ⟨2, 0⟩, ⟨2, 2⟩, ⟨none, none, none, none, none⟩, 1⟩] :=
  claim_C6_invalid_release_reverts 1024 768 230 120 (some ⟨0, 0, 872, 656⟩)
    ⟨"a", WType.text, ⟨0, 0⟩, ⟨2, 2⟩, ⟨none, none, none, none, none⟩, 0⟩
    [⟨"a", WType.text, ⟨0, 0⟩, ⟨2, 2⟩, ⟨none, none, none, none, none⟩, 0⟩,
      ⟨"b", WType.text, ⟨2, 0⟩, ⟨2, 2⟩, ⟨none, none, none, none, none⟩, 1⟩]
    8 6 (by norm_num [isMouseOverTrashZone])
    (Or.inr ⟨⟨1, 0⟩, by
      simp only [getGridPositionFromMouse, pointerCellX, pointerCellY, jsFloor]
      norm_num, by decide⟩)

/-- Claim C7 fails on the code: pressing a 3×3 widget anchored at (0,0)
at pixel (228,228) — a point inside the widget's on-screen box, whose
pointer cell is (2,2) — and releasing at the same pixel re-centers the
widget on the pointer's cell and commits position (1,1): the no-movement
gesture changes the widget's grid position. -/
theorem claim_C7_counterexample :
    (endDragSystem 1024 768 228 228 (some ⟨0, 0, 872, 656⟩)
        ⟨"a", WType.text, ⟨0, 0⟩, ⟨3, 3⟩, ⟨none, none, none, none, none⟩, 0⟩
        [⟨"a", WType.text, ⟨0, 0⟩, ⟨3, 3⟩, ⟨none, none, none, none, none⟩, 0⟩]
        8 6).map (fun w => w.position) = [⟨1, 1⟩] ∧
    (⟨1, 1⟩ : Pos) ≠ (⟨0, 0⟩ : Pos) := by
  constructor
  · have htrash : isMouseOverTrashZone 1024 768 228 228 = false := by
      norm_num [isMouseOverTrashZone]
    have hcond : ¬ (isMouseOverTrashZone 1024 768 228 228 = true) := by
      rw [htrash]
      simp
    have hgp : getGridPositionFromMouse 228 228 (some ⟨0, 0, 872, 656⟩)
        ⟨"a", WType.text, ⟨0, 0⟩, ⟨3, 3⟩, ⟨none, none, none, none, none⟩, 0⟩
        8 6 = some ⟨1, 1⟩ := by
      simp only [getGridPositionFromMouse, pointerCellX, pointerCellY, jsFloor]
      norm_num [show Int.fdiv 3 2 = 1 from by decide]
    simp only [endDragSystem, if_neg hcond, hgp]
    rw [if_neg (by decide)]
    decide
  · decide

/-- Claim C7 amended: releasing with no movement leaves the widget's
position unchanged provided the press pixel's pointer cell is the
widget's center cell (position plus floor(size/2) on each axis), the
widget lies in-bounds, the pointer is away from the trash zone, and the
widget's own position passes the overlap check; in general the commit
re-centers the widget on the pointer's cell and may move it. -/
theorem claim_C7_amended_center_cell_release (windowWidth windowHeight
    mouseX mouseY : ℚ) (box : GridBox) (self : Widget) (ws : List Widget)
    (columns rows : Int)
    (hcx : pointerCellX mouseX box columns =
      self.position.x + Int.fdiv self.size.width 2)
    (hcy : pointerCellY mouseY box rows =
      self.position.y + Int.fdiv self.size.height 2)
    (hin : 0 ≤ self.position.x ∧
      self.position.x + self.size.width ≤ columns ∧
      0 ≤ self.position.y ∧ self.position.y + self.size.height ≤ rows)
    (htrash : isMouseOverTrashZone windowWidth windowHeight mouseX mouseY =
      false)
    (hov : wouldOverlap self.position.x self.position.y self ws columns rows =
      false)
    (hnd : (ws.map Widget.id).Nodup) (hmem : self ∈ ws) :
    endDragSystem windowWidth windowHeight mouseX mouseY (some box) self ws
      columns rows = ws := by
  have hgp : getGridPositionFromMouse mouseX mouseY (some box) self columns
      rows = some self.position := by
    simp only [getGridPositionFromMouse, hcx, hcy, Option.some.injEq]
    have hx : max 0 (min (self.position.x + Int.fdiv self.size.width 2 -
        Int.fdiv self.size.width 2) (columns - self.size.width)) =
        self.position.x := by omega
    have hy : max 0 (min (self.position.y + Int.fdiv self.size.height 2 -
        Int.fdiv self.size.height 2) (rows - self.size.height)) =
        self.position.y := by omega
    rw [hx, hy]
  have hcond : ¬ (isMouseOverTrashZone windowWidth windowHeight mouseX
      mouseY = true) := by
    rw [htrash]
    simp
  simp only [endDragSystem, if_neg hcond, hgp]
  rw [if_neg (by rw [hov]; simp)]
  exact updateWidget_self_position hnd hmem

theorem claim_C7_amended_witness :
    endDragSystem 1024 768 228 228 (some ⟨0, 0, 872, 656⟩)
      ⟨"a", WType.text, ⟨1, 1⟩, ⟨3, 3⟩, ⟨none, none, none, none, none⟩, 0⟩
      [⟨"a", WType.text, ⟨1, 1⟩, ⟨3, 3⟩, ⟨none, none, none, none, none⟩, 0⟩]
      8 6 =
      [⟨"a", WType.text, ⟨1, 1⟩, ⟨3, 3⟩, ⟨none, none, none, none, none⟩, 0⟩] :=
  claim_C7_amended_center_cell_release 1024 768 228 228 ⟨0, 0, 872, 656⟩
    ⟨"a", WType.text, ⟨1, 1⟩, ⟨3, 3⟩, ⟨none, none, none, none, none⟩, 0⟩
    [⟨"a", WType.text, ⟨1, 1⟩, ⟨3, 3⟩, ⟨none, none, none, none, none⟩, 0⟩]
    8 6
    (by simp only [pointerCellX, jsFloor]
        norm_num [show Int.fdiv 3 2 = 1 from by decide])
    (by simp only [pointerCellY, jsFloor]
        norm_num [show Int.fdiv 3 2 = 1 from by decide])
    (by decide) (by norm_num [isMouseOverTrashZone]) (by decide) (by decide)
    (by decide)

/-- Claim C8: when no free width×height block exists anywhere in the
grid, findAvailablePosition returns none and createWidget leaves the
collection completely unchanged while raising the user-visible no-space
alert. -/
theorem claim_C8_no_space_no_mutation (ty : WType) (width height : Int)
    (content : Content) (id : String) (now : Int) (ws : List Widget)
    (columns rows : Int)
    (hfull : ∀ p : Pos, InRange columns rows width height p →
      ∃ c ∈ cellsOf p ⟨width, height⟩, c ∈ occupiedCells ws) :
    findAvailablePosition width height ws columns rows = none ∧
    createWidget ty width height content id now ws columns rows =
      (ws, true) := by
  have hnone : findAvailablePosition width height ws columns rows = none := by
    rw [findAvailablePosition_eq_none_iff]
    intro r hr hfree
    obtain ⟨c, hc, hocc⟩ := hfull r hr
    exact hfree c hc hocc
  exact ⟨hnone, by simp only [createWidget, hnone]⟩

theorem claim_C8_witness :
    findAvailablePosition 4 4
      [⟨"b", WType.text, ⟨3, 3⟩, ⟨2, 1⟩, ⟨none, none, none, none, none⟩, 0⟩]
      8 6 = none ∧
    createWidget WType.text 4 4 ⟨none, none, none, none, none⟩ "new" 5
      [⟨"b", WType.text, ⟨3, 3⟩, ⟨2, 1⟩, ⟨none, none, none, none, none⟩, 0⟩]
      8 6 =
      ([⟨"b", WType.text, ⟨3, 3⟩, ⟨2, 1⟩, ⟨none, none, none, none, none⟩, 0⟩],
        true) :=
  claim_C8_no_space_no_mutation WType.text 4 4 ⟨none, none, none, none, none⟩
    "new" 5
    [⟨"b", WType.text, ⟨3, 3⟩, ⟨2, 1⟩, ⟨none, none, none, none, none⟩, 0⟩]
    8 6
    (by
      intro p hp
      simp only [InRange] at hp
      rcases le_or_lt p.x 3 with hx | hx
      · refine ⟨⟨3, 3⟩, ?_, by decide⟩
        simp only [mem_cellsOf]
        omega
      · refine ⟨⟨4, 3⟩, ?_, by decide⟩
        simp only [mem_cellsOf]
        omega)

/-- Claim C9: on a drag move, a valid candidate emits exactly the full
covered-cell set of the candidate rectangle together with valid = true,
and an invalid candidate (no grid mapping, or wouldOverlap) emits an
empty cell list together with valid = false. -/
theorem claim_C9_drag_move_feedback (mouseX mouseY : ℚ)
    (gridBox : Option GridBox) (self : Widget) (ws : List Widget)
    (columns rows : Int) :
    (∀ gp : Pos,
      getGridPositionFromMouse mouseX mouseY gridBox self columns rows =
        some gp →
      wouldOverlap gp.x gp.y self ws columns rows = false →
      dragMoveEmit mouseX mouseY gridBox self ws columns rows =
        (getCellsForPosition gp.x gp.y self, true) ∧
      ∀ c : Pos, c ∈ getCellsForPosition gp.x gp.y self ↔
        (gp.x ≤ c.x ∧ c.x < gp.x + self.size.width ∧
          gp.y ≤ c.y ∧ c.y < gp.y + self.size.height)) ∧
    ((getGridPositionFromMouse mouseX mouseY gridBox self columns rows =
        none ∨
      ∃ gp : Pos,
        getGridPositionFromMouse mouseX mouseY gridBox self columns rows =
          some gp ∧
        wouldOverlap gp.x gp.y self ws columns rows = true) →
      dragMoveEmit mouseX mouseY gridBox self ws columns rows =
        ([], false)) := by
  constructor
  · intro gp hgp hov
    constructor
    · simp only [dragMoveEmit, hgp]
      rw [if_neg (by rw [hov]; simp)]
    · intro c
      rw [getCellsForPosition, mem_cellsOf]
  · rintro (hnone | ⟨gp, hgp, hov⟩)
    · simp only [dragMoveEmit, hnone]
    · simp only [dragMoveEmit, hgp]
      rw [if_pos hov]

theorem claim_C9_witness :
    dragMoveEmit 100 100 (some ⟨0, 0, 872, 656⟩)
      ⟨"a", WType.text, ⟨0, 0⟩, ⟨2, 2⟩, ⟨none, none, none, none, none⟩, 0⟩
      [] 8 6 =
      (getCellsForPosition 0 0
        ⟨"a", WType.text, ⟨0, 0⟩, ⟨2, 2⟩, ⟨none, none, none, none, none⟩, 0⟩,
        true) ∧
    dragMoveEmit 100 100 none
      ⟨"a", WType.text, ⟨0, 0⟩, ⟨2, 2⟩, ⟨none, none, none, none, none⟩, 0⟩
      [] 8 6 = ([], false) :=
  ⟨((claim_C9_drag_move_feedback 100 100 (some ⟨0, 0, 872, 656⟩)
      ⟨"a", WType.text, ⟨0, 0⟩, ⟨2, 2⟩, ⟨none, none, none, none, none⟩, 0⟩
      [] 8 6).1 ⟨0, 0⟩
      (by
        simp only [getGridPositionFromMouse, pointerCellX, pointerCellY,
          jsFloor]
        norm_num)
      (by decide)).1,
    (claim_C9_drag_move_feedback 100 100 none
      ⟨"a", WType.text, ⟨0, 0⟩, ⟨2, 2⟩, ⟨none, none, none, none, none⟩, 0⟩
      [] 8 6).2 (Or.inl rfl)⟩

/-- Claim C10: updateWidget with an id absent from the collection leaves
the collection unchanged. -/
theorem claim_C10_updateWidget_absent_id (id : String) (p : Pos)
    (ws : List Widget) (hid : id ∉ ws.map Widget.id) :
    updateWidget id p ws = ws :=
  updateWidget_of_absent hid

theorem claim_C10_witness :
    updateWidget "zz" ⟨0, 0⟩
      [⟨"w1", WType.text, ⟨0, 0⟩, ⟨2, 2⟩, ⟨none, none, none, none, none⟩, 0⟩] =
      [⟨"w1", WType.text, ⟨0, 0⟩, ⟨2, 2⟩, ⟨none, none, none, none, none⟩, 0⟩] :=
  claim_C10_updateWidget_absent_id "zz" ⟨0, 0⟩ _ (by decide)

end GridVue
